import Mathlib

/-!
Shallow embedding of `src/leads/comm/prototype.py`: the `Service` lifecycle,
the `Connection` frame codec (`receive`/`send`/`close`/`disconnect`/`closed`)
and the `Entity._stage` dispatch loop.

Byte strings are lists of byte values (`List Nat`).  The socket is modelled
as a script of `recv` outcomes: each call either returns a chunk of bytes or
raises `IOError`.  An exhausted script models a peer that has cleanly closed
the stream, where a real stream socket's `recv` returns empty bytes forever.
The unbounded `while` loop inside `receive` is given explicit fuel, so that
non-termination of the Python loop is visible as `outOfFuel` for every fuel.
-/

namespace Leads

/-- Byte strings (Python `bytes`) as lists of byte values. -/
abbrev Bytes := List Nat

/-- The frame delimiter byte `b";"` (ASCII 59). -/
def delim : Nat := 59

/-- The reserved sentinel payload `b"disconnect"`. -/
def disconnectMsg : Bytes := [100, 105, 115, 99, 111, 110, 110, 101, 99, 116]

/-- Python `s.find(b";")`: index of the first delimiter byte, `-1` if absent. -/
def pyFind (s : Bytes) : Int :=
  match s.findIdx? (fun b => b = delim) with
  | some n => (n : Int)
  | none => -1

/-- Python slice `s[:j]`, where `j` may be negative (counted from the end,
clamped at 0 like Python). -/
def pySliceTo (s : Bytes) (j : Int) : Bytes :=
  if 0 ≤ j then s.take j.toNat else s.take (s.length - (-j).toNat)

/-- Python slice `s[i:]`, where `i` may be negative (counted from the end,
clamped at 0 like Python). -/
def pySliceFrom (s : Bytes) (i : Int) : Bytes :=
  if 0 ≤ i then s.drop i.toNat else s.drop (s.length - (-i).toNat)

/-- One outcome of a `socket.recv` call: a chunk of bytes, or an `IOError`. -/
inductive RecvStep where
  | data (chunk : Bytes)
  | fail
deriving DecidableEq

/-- State of a `Connection`: whether the socket is open (`fileno() != -1`),
the `_remainder` buffer, and the script of pending `recv` outcomes. -/
structure Conn where
  sockOpen : Bool
  remainder : Bytes
  stream : List RecvStep
deriving DecidableEq

/-- Python `Connection.closed()`: `self._socket.fileno() == -1`. -/
def Conn.closed (c : Conn) : Bool := !c.sockOpen

/-- Python `Connection._require_open_socket(mandatory)`: `none` models the
`IOError` raised when an open socket is mandatory but the socket is closed. -/
def requireOpenSocket (c : Conn) (mandatory : Bool) : Option Unit :=
  if mandatory && c.closed then none else some ()

/-- Python `msg.endswith(b";")`. -/
def endsWithDelim (m : Bytes) : Bool := m.getLast? == some delim

/-- Outcome of the accumulation `while` loop of `receive`: the accumulated
buffer and remaining script, an `IOError` during a read, or fuel exhaustion
(the Python loop has not terminated within `fuel` iterations). -/
inductive AccumResult where
  | done (msg : Bytes) (stream : List RecvStep)
  | ioerror (stream : List RecvStep)
  | outOfFuel
deriving DecidableEq

/-- The loop `while not msg.endswith(b";"): msg += self._require_open_socket().recv(chunk_size)`.
When the script is exhausted, `recv` returns empty bytes (clean stream end),
so the loop state repeats. -/
def recvAccum (fuel : Nat) (sockOpen : Bool) (stream : List RecvStep) (msg : Bytes) :
    AccumResult :=
  match fuel with
  | 0 => .outOfFuel
  | fuel + 1 =>
    if endsWithDelim msg then .done msg stream
    else if sockOpen then
      match stream with
      | [] => recvAccum fuel sockOpen [] msg
      | .data chunk :: rest => recvAccum fuel sockOpen rest (msg ++ chunk)
      | .fail :: rest => .ioerror rest
    else .ioerror stream

/-- The branch of `Connection.receive` taken when `self._remainder != b""`:
returns the pair (returned message, new remainder), transcribing

    if (i := self._remainder.find(b";")) != len(self._remainder) - 1:
        msg = self._remainder[:i + 1]
        self._remainder = self._remainder[i:]
    else:
        msg = self._remainder[:i]
        self._remainder = b""
-/
def receiveFromRemainder (r : Bytes) : Bytes × Bytes :=
  let i := pyFind r
  if i ≠ (r.length : Int) - 1 then
    (pySliceTo r (i + 1), pySliceFrom r i)
  else
    (pySliceTo r i, [])

/-- Result of one `receive` call: a returned byte string with the successor
connection state, a `None` return with the successor state, or fuel
exhaustion of the accumulation loop. -/
inductive ReceiveResult where
  | frame (msg : Bytes) (c : Conn)
  | nothing (c : Conn)
  | outOfFuel
deriving DecidableEq

/-- Python `Connection.receive`: consume the remainder buffer if non-empty,
otherwise accumulate chunks until the buffer ends with the delimiter and
split it; an `IOError` during accumulation is converted to a `None` return. -/
def receive (fuel : Nat) (c : Conn) : ReceiveResult :=
  if c.remainder ≠ [] then
    let p := receiveFromRemainder c.remainder
    .frame p.1 { c with remainder := p.2 }
  else
    match recvAccum fuel c.sockOpen c.stream [] with
    | .outOfFuel => .outOfFuel
    | .ioerror s => .nothing { c with stream := s }
    | .done msg s =>
      let i := pyFind msg
      if i ≠ (msg.length : Int) - 1 then
        .frame (pySliceTo msg i) { c with remainder := pySliceFrom msg (i + 1), stream := s }
      else
        .frame (pySliceTo msg ((msg.length : Int) - 1)) { c with stream := s }

/-- Python `Connection.close`: `self._require_open_socket(False).close()`.
The mandatory flag is `False`, so no `IOError` is possible; closing an
already-closed socket is a no-op. -/
def Conn.close (c : Conn) : Option Conn :=
  match requireOpenSocket c false with
  | none => none
  | some _ => some { c with sockOpen := false }

/-- Python `Connection.send`: write `msg + b";"` through an open socket
(raising `IOError`, modelled as `none`, if the socket is closed), then close
the local socket when `msg` is the disconnect sentinel.  On success it yields
the bytes put on the wire and the successor state. -/
def send (c : Conn) (msg : Bytes) : Option (Bytes × Conn) :=
  match requireOpenSocket c true with
  | none => none
  | some _ =>
    if msg = disconnectMsg then
      match c.close with
      | none => none
      | some c2 => some (msg ++ [delim], c2)
    else some (msg ++ [delim], c)

/-- Python `Connection.disconnect`: `self.send(b"disconnect")`. -/
def disconnect (c : Conn) : Option (Bytes × Conn) := send c disconnectMsg

/-- State of a `Service`: whether `_main_thread` is set (non-`None`) and
whether `_lock` is currently held. -/
structure ServiceState where
  mainThread : Bool
  lockHeld : Bool
deriving DecidableEq

/-- Outcome of `Service._register_process`: success, the raised
`RuntimeWarning("A service can only run once")` (with the state it leaves
behind), or blocking forever on `self._lock.acquire()`. -/
inductive RegResult where
  | ok (s : ServiceState)
  | alreadyRunning (s : ServiceState)
  | blocked
deriving DecidableEq

/-- Python `Service._register_process`: acquire the lock; if a worker thread
is already registered, raise before entering the `try`/`finally` that would
release the lock; otherwise create the thread and release the lock. -/
def registerProcess (s : ServiceState) : RegResult :=
  if s.lockHeld then .blocked
  else
    let s1 : ServiceState := { s with lockHeld := true }
    if s1.mainThread then .alreadyRunning s1
    else .ok { mainThread := true, lockHeld := false }

/-- Outcome of `Service.start`: normal return of `self`, the propagated
`RuntimeWarning`, or blocking on the lock. -/
inductive StartResult where
  | ok (s : ServiceState)
  | alreadyRunning (s : ServiceState)
  | blocked
deriving DecidableEq

/-- Python `Service.start(parallel)`: with `parallel=True` it registers the
worker thread via `_register_process` and launches it; with `parallel=False`
it runs the workflow inline on the calling thread, never touching
`_main_thread` or the lock. -/
def start (s : ServiceState) (parallel : Bool) : StartResult :=
  if parallel then
    match registerProcess s with
    | .ok s2 => .ok s2
    | .alreadyRunning s2 => .alreadyRunning s2
    | .blocked => .blocked
  else .ok s

/-- Whether a `start` call raised the already-running error. -/
def isAlreadyRunning : StartResult → Bool
  | .alreadyRunning _ => true
  | _ => false

/-- What one iteration of `Entity._stage` does with the value returned by
`connection.receive()`: invoke `on_disconnect`, close the connection and
return, or invoke `on_receive` with the message and continue looping. -/
inductive StageAction where
  | disconnect
  | deliver (msg : Bytes)
deriving DecidableEq

/-- One iteration of `Entity._stage`: `if not msg or msg == b"disconnect"`.
Python truthiness makes both `None` and the empty byte string falsy. -/
def stageStep (msg : Option Bytes) : StageAction :=
  match msg with
  | Option.none => .disconnect
  | some m => if m = [] ∨ m = disconnectMsg then .disconnect else .deliver m

/-- The `Entity._stage` loop over a script of `receive` results: the list of
messages passed to `on_receive` and the number of `on_disconnect`
invocations.  The loop returns right after the first disconnecting value. -/
def stageRun : List (Option Bytes) → List Bytes × Nat
  | [] => ([], 0)
  | v :: rest =>
    match stageStep v with
    | .disconnect => ([], 1)
    | .deliver m =>
      let p := stageRun rest
      (m :: p.1, p.2)

/-- A connection whose peer has cleanly closed the stream: socket open, no
buffered remainder, and an exhausted `recv` script (every further `recv`
returns empty bytes). -/
def cleanEndConn : Conn := ⟨true, [], []⟩

/-- The `receive` call on connection `c` never terminates: for every fuel the
accumulation loop is still running. -/
def divergesOn (c : Conn) : Prop := ∀ fuel, receive fuel c = .outOfFuel

/-- A freshly constructed service: no worker thread registered, lock free. -/
def initialService : ServiceState := ⟨false, false⟩

/-! Helper lemmas. -/

/-- Closing a connection always succeeds, and marks the socket closed. -/
theorem close_eq (c : Conn) : c.close = some { c with sockOpen := false } := rfl

/-- The accumulation loop makes no progress on an exhausted stream: every
`recv` returns empty bytes, so the buffer never comes to end with the
delimiter and every amount of fuel runs out. -/
theorem recvAccum_stuck (fuel : Nat) (msg : Bytes) (h : endsWithDelim msg = false) :
    recvAccum fuel true [] msg = .outOfFuel := by
  induction fuel with
  | zero => rfl
  | succ n ih => simp [recvAccum, h, ih]

/-- On a cleanly ended stream with nothing buffered, `receive` never returns. -/
theorem cleanEnd_diverges_aux : divergesOn cleanEndConn := by
  intro fuel
  have h : recvAccum fuel true [] [] = .outOfFuel := recvAccum_stuck fuel [] rfl
  simp [receive, cleanEndConn, h]

/-- Scanning a delimiter-free byte string finds nothing, from any start. -/
theorem findIdx_delim_none (r : Bytes) (h : delim ∉ r) :
    ∀ i, List.findIdx? (fun b => b = delim) r i = none := by
  induction r with
  | nil => intro i; rfl
  | cons a t ih =>
    intro i
    rw [List.findIdx?_cons]
    have ha : a ≠ delim := fun e => h (e ▸ List.mem_cons_self a t)
    simp only [ha, decide_False, Bool.false_eq_true, if_false]
    exact ih (fun hm => h (List.mem_cons_of_mem a hm)) (i + 1)

/-- Python `find` on a delimiter-free byte string returns `-1`. -/
theorem pyFind_of_not_mem (r : Bytes) (h : delim ∉ r) : pyFind r = -1 := by
  unfold pyFind
  rw [findIdx_delim_none r h 0]

/-- Scanning a delimiter-free payload followed by one delimiter finds exactly
the final position, from any start. -/
theorem findIdx_concat_delim (m : Bytes) (h : delim ∉ m) :
    ∀ i, List.findIdx? (fun b => b = delim) (m ++ [delim]) i = some (i + m.length) := by
  induction m with
  | nil =>
    intro i
    rw [List.nil_append, List.findIdx?_cons]
    simp
  | cons a t ih =>
    intro i
    rw [List.cons_append, List.findIdx?_cons]
    have ha : a ≠ delim := fun e => h (e ▸ List.mem_cons_self a t)
    simp only [ha, decide_False, Bool.false_eq_true, if_false]
    rw [ih (fun hm => h (List.mem_cons_of_mem a hm)) (i + 1)]
    congr 1
    simp [List.length_cons]
    omega

/-- Python `find` on a delimiter-free payload followed by one delimiter
returns the payload length. -/
theorem pyFind_concat (m : Bytes) (h : delim ∉ m) :
    pyFind (m ++ [delim]) = (m.length : Int) := by
  unfold pyFind
  rw [findIdx_concat_delim m h 0]
  simp

/-- A buffer consisting of a payload and one trailing delimiter ends with the
delimiter. -/
theorem endsWithDelim_concat (m : Bytes) : endsWithDelim (m ++ [delim]) = true := by
  simp [endsWithDelim, List.getLast?_concat]

/-- Dropping all but the last element leaves exactly the last element. -/
theorem drop_pred_getLast (r : Bytes) (b : Nat) (h : r.getLast? = some b) :
    r.drop (r.length - 1) = [b] := by
  induction r with
  | nil => simp at h
  | cons a t ih =>
    cases t with
    | nil =>
      simp [List.getLast?] at h
      simp [h]
    | cons c u =>
      have h2 : (c :: u).getLast? = some b := by
        rw [← h]
        simp [List.getLast?_cons_cons]
      have := ih h2
      simpa [List.length_cons, Nat.succ_sub_one] using this

/-- The last element of a byte string is one of its elements. -/
theorem getLast_mem_of_some (r : Bytes) (b : Nat) (h : r.getLast? = some b) : b ∈ r := by
  have := drop_pred_getLast r b h
  have hb : b ∈ r.drop (r.length - 1) := by rw [this]; exact List.mem_singleton_self b
  exact List.drop_subset _ r hb

/-- An initial segment of a framed transmission that already ends with the
delimiter must be the whole transmission, when the payload is delimiter-free. -/
theorem accum_ends_eq_whole (m acc t : Bytes) (hm : delim ∉ m)
    (hsplit : acc ++ t = m ++ [delim]) (he : endsWithDelim acc = true) :
    acc = m ++ [delim] := by
  have hlast : acc.getLast? = some delim := by
    simpa [endsWithDelim] using he
  have hdmem : delim ∈ acc := getLast_mem_of_some acc delim hlast
  have hlen : acc.length + t.length = m.length + 1 := by
    have := congrArg List.length hsplit
    simpa [List.length_append] using this
  by_cases hle : acc.length ≤ m.length
  · exfalso
    have hacc : acc = (m ++ [delim]).take acc.length := by
      rw [← hsplit]
      exact (List.take_left acc t).symm
    have hsub : acc ⊆ m := by
      rw [hacc, List.take_append_of_le_length hle]
      exact List.take_subset _ m
    exact hm (hsub hdmem)
  · have ht : t = [] := by
      have : t.length = 0 := by omega
      exact List.length_eq_zero.mp this
    rw [ht, List.append_nil] at hsplit
    exact hsplit

/-- Running the accumulation loop over chunks that complete a framed
transmission reaches exactly the full transmission. -/
theorem recvAccum_chunks (m : Bytes) (hm : delim ∉ m) :
    ∀ (chunks : List Bytes) (acc : Bytes),
      acc ++ chunks.flatten = m ++ [delim] →
      ∃ s, recvAccum (chunks.length + 1) true (chunks.map RecvStep.data) acc
        = .done (m ++ [delim]) s := by
  intro chunks
  induction chunks with
  | nil =>
    intro acc hacc
    rw [List.flatten_nil, List.append_nil] at hacc
    subst hacc
    refine ⟨[], ?_⟩
    simp [recvAccum, endsWithDelim_concat]
  | cons c rest ih =>
    intro acc hacc
    by_cases he : endsWithDelim acc
    · have heq : acc = m ++ [delim] :=
        accum_ends_eq_whole m acc ((c :: rest).flatten) hm hacc he
      refine ⟨(c :: rest).map RecvStep.data, ?_⟩
      rw [heq] at he ⊢
      simp [recvAccum, he]
    · have hacc2 : (acc ++ c) ++ rest.flatten = m ++ [delim] := by
        rw [List.append_assoc, ← List.flatten_cons]
        exact hacc
      obtain ⟨s, hs⟩ := ih (acc ++ c) hacc2
      refine ⟨s, ?_⟩
      have hne : endsWithDelim acc = false := by simpa using he
      calc recvAccum ((c :: rest).length + 1) true ((c :: rest).map RecvStep.data) acc
          = recvAccum (rest.length + 1) true (rest.map RecvStep.data) (acc ++ c) := by
            simp [recvAccum, hne, List.length_cons]
        _ = .done (m ++ [delim]) s := hs

/-- Stripping the final delimiter from a framed transmission recovers the
payload. -/
theorem pySliceTo_strip_delim (m : Bytes) :
    pySliceTo (m ++ [delim]) (((m ++ [delim]).length : Int) - 1) = m := by
  have hlen : (m ++ [delim]).length = m.length + 1 := by
    simp [List.length_append]
  rw [hlen]
  have h0 : (0 : Int) ≤ (m.length + 1 : Nat) - 1 := by
    push_cast
    omega
  rw [pySliceTo, if_pos h0]
  have htn : (((m.length + 1 : Nat) : Int) - 1).toNat = m.length := by
    push_cast
    omega
  rw [htn]
  exact List.take_left m [delim]

/-- The accumulation loop reads through any run of partial chunks whose
accumulated buffer never comes to end with the delimiter, and converts the
first failing read — wherever in the accumulation it strikes — into an
`IOError` outcome. -/
theorem recvAccum_fail_after_chunks (chunks : List Bytes) :
    ∀ (rest : List RecvStep) (acc : Bytes),
      (∀ k, k ≤ chunks.length → endsWithDelim (acc ++ (chunks.take k).flatten) = false) →
      recvAccum (chunks.length + 1) true
        (chunks.map RecvStep.data ++ RecvStep.fail :: rest) acc = .ioerror rest := by
  induction chunks with
  | nil =>
    intro rest acc h
    have h0 : endsWithDelim acc = false := by
      simpa using h 0 (Nat.le_refl 0)
    simp [recvAccum, h0]
  | cons ch t ih =>
    intro rest acc h
    have h0 : endsWithDelim acc = false := by
      simpa using h 0 (Nat.zero_le _)
    have h2 : ∀ k, k ≤ t.length →
        endsWithDelim ((acc ++ ch) ++ (t.take k).flatten) = false := by
      intro k hk
      have := h (k + 1) (by simpa using Nat.succ_le_succ hk)
      simpa [List.take_succ_cons, List.flatten_cons, List.append_assoc] using this
    calc recvAccum ((ch :: t).length + 1) true
          ((ch :: t).map RecvStep.data ++ RecvStep.fail :: rest) acc
        = recvAccum (t.length + 1) true
            (t.map RecvStep.data ++ RecvStep.fail :: rest) (acc ++ ch) := by
          simp [recvAccum, h0, List.length_cons]
      _ = .ioerror rest := ih rest (acc ++ ch) h2

/-- With a non-empty remainder, `receive` consumes the buffer and never
touches the socket. -/
theorem receive_remainder_case (fuel : Nat) (c : Conn) (hne : c.remainder ≠ []) :
    receive fuel c = ReceiveResult.frame (receiveFromRemainder c.remainder).1
      { c with remainder := (receiveFromRemainder c.remainder).2 } := by
  unfold receive
  rw [if_pos hne]

/-! Claim theorems. -/

/-- C1: evaluating `receive` on the leftover buffer `b"A;B;"`, whose first
delimiter is not its last byte.  The call returns `b"A;"` — the delimiter is
NOT stripped from the returned frame — and retains `b";B;"` — the delimiter
is NOT stripped from the leftover.  The follow-up call on `b";B;"` returns
`b";"` and leaves the buffer unchanged, so the drain never terminates;
the claimed frame `b"A"` / leftover `b"B;"` split does not hold. -/
theorem c1_remainder_defect_eval :
    receive 0 ⟨true, [65, 59, 66, 59], []⟩
      = ReceiveResult.frame [65, 59] ⟨true, [59, 66, 59], []⟩ ∧
    receive 0 ⟨true, [59, 66, 59], []⟩
      = ReceiveResult.frame [59] ⟨true, [59, 66, 59], []⟩ := by decide

/-- C2: for every payload `m` without the delimiter byte, `send m` on an open
endpoint puts `m` plus exactly one delimiter on the wire, and `receive` on a
peer whose remainder is empty, with the wire bytes arriving as any chunk
sequence, returns exactly `m` with the delimiter stripped. -/
theorem c2_send_receive_roundtrip (m wire : Bytes) (c c2 peer : Conn)
    (chunks : List Bytes)
    (hm : delim ∉ m)
    (hsend : send c m = some (wire, c2))
    (hrem : peer.remainder = [])
    (hopen : peer.sockOpen = true)
    (hstream : peer.stream = chunks.map RecvStep.data)
    (hwire : chunks.flatten = wire) :
    ∃ s, receive (chunks.length + 1) peer = ReceiveResult.frame m s := by
  have hwire2 : wire = m ++ [delim] := by
    unfold send at hsend
    cases hro : requireOpenSocket c true with
    | none => rw [hro] at hsend; simp at hsend
    | some u =>
      rw [hro] at hsend
      by_cases hd : m = disconnectMsg
      · rw [if_pos hd, close_eq] at hsend
        simp at hsend
        exact hsend.1.symm
      · rw [if_neg hd] at hsend
        simp at hsend
        exact hsend.1.symm
  have hflat : [] ++ chunks.flatten = m ++ [delim] := by
    rw [List.nil_append, hwire, hwire2]
  obtain ⟨s, hs⟩ := recvAccum_chunks m hm chunks [] hflat
  have hrecv : recvAccum (chunks.length + 1) peer.sockOpen peer.stream []
      = .done (m ++ [delim]) s := by
    rw [hopen, hstream]
    exact hs
  refine ⟨{ peer with stream := s }, ?_⟩
  have hfind := pyFind_concat m hm
  have hcond : ¬ (pyFind (m ++ [delim]) ≠ ((m ++ [delim]).length : Int) - 1) := by
    rw [hfind]
    simp [List.length_append]
  simp only [receive, hrem, ne_eq, not_true_eq_false, if_false, hrecv]
  rw [if_neg hcond, pySliceTo_strip_delim]

/-- C2 witness: the payload `b"P"` sent as the single chunk `b"P;"` is
received back exactly. -/
theorem c2_send_receive_roundtrip_witness :
    ∃ s, receive 2 ⟨true, [], [RecvStep.data [80, 59]]⟩
      = ReceiveResult.frame [80] s :=
  c2_send_receive_roundtrip [80] [80, 59] ⟨true, [], []⟩ ⟨true, [], []⟩
    ⟨true, [], [RecvStep.data [80, 59]]⟩ [[80, 59]]
    (by decide) (by decide) rfl rfl rfl rfl

/-- C3: the bytes `PING;PONG;` delivered in one read to a connection with an
empty remainder yield `PING` from the first `receive` and `PONG` from the
second, with the remainder holding exactly `PONG;` in between and nothing at
the end: no byte is lost or duplicated and no delimiter is retained. -/
theorem c3_ping_pong :
    receive 2 ⟨true, [], [RecvStep.data [80, 73, 78, 71, 59, 80, 79, 78, 71, 59]]⟩
      = ReceiveResult.frame [80, 73, 78, 71] ⟨true, [80, 79, 78, 71, 59], []⟩ ∧
    receive 2 ⟨true, [80, 79, 78, 71, 59], []⟩
      = ReceiveResult.frame [80, 79, 78, 71] ⟨true, [], []⟩ := by decide

/-- C4 counterexample: the empty-but-valid frame `b""` is falsy in Python, so
the dispatch loop treats it as a disconnect rather than passing it to
`on_receive`, although it is neither the null result nor the sentinel. -/
theorem c4_empty_frame_counterexample :
    stageStep (some []) = StageAction.disconnect ∧
    some ([] : Bytes) ≠ (Option.none : Option Bytes) ∧
    ([] : Bytes) ≠ disconnectMsg := by decide

/-- C4 (amended): the dispatch loop invokes `on_disconnect`, closes the
connection and terminates exactly when `receive` returned null, the empty
byte string, or the sentinel `b"disconnect"`; every other frame is passed to
`on_receive` and the loop continues. -/
theorem c4_dispatch_loop (m : Bytes) (h1 : m ≠ []) (h2 : m ≠ disconnectMsg) :
    stageStep (some m) = StageAction.deliver m ∧
    stageStep Option.none = StageAction.disconnect ∧
    stageStep (some []) = StageAction.disconnect ∧
    stageStep (some disconnectMsg) = StageAction.disconnect := by
  have hnot : ¬ (m = [] ∨ m = disconnectMsg) := by
    rintro (h | h)
    · exact h1 h
    · exact h2 h
  refine ⟨?_, rfl, by decide, ?_⟩
  · simp [stageStep, hnot]
  · simp [stageStep]

/-- C4 witness: the one-byte frame `b"H"` is delivered to `on_receive` while
null, the empty frame and the sentinel all disconnect. -/
theorem c4_dispatch_loop_witness :
    stageStep (some [72]) = StageAction.deliver [72] ∧
    stageStep Option.none = StageAction.disconnect ∧
    stageStep (some []) = StageAction.disconnect ∧
    stageStep (some disconnectMsg) = StageAction.disconnect :=
  c4_dispatch_loop [72] (by decide) (by decide)

/-- C5 counterexample: with `parallel=False` the workflow runs inline and no
worker thread is ever registered, so a second non-parallel `start` on a fresh
service does not raise the already-running error — both calls succeed. -/
theorem c5_nonparallel_counterexample :
    start initialService false = StartResult.ok initialService ∧
    isAlreadyRunning (start initialService false) = false := by decide

/-- C5 (amended): registration happens only on the parallel path.  For a
service with no registered worker and a free lock, the first
`start(parallel=True)` succeeds and registers the worker; a second
`start(parallel=True)` raises the already-running error, with the first
registration retained; non-parallel `start` never raises it. -/
theorem c5_parallel_start_once (s : ServiceState)
    (hmt : s.mainThread = false) (hlk : s.lockHeld = false) :
    start s true = StartResult.ok ⟨true, false⟩ ∧
    start ⟨true, false⟩ true = StartResult.alreadyRunning ⟨true, true⟩ ∧
    isAlreadyRunning (start s false) = false := by
  refine ⟨?_, by decide, by simp [start, isAlreadyRunning]⟩
  simp [start, registerProcess, hmt, hlk]

/-- C5 witness: the two parallel starts on a fresh service. -/
theorem c5_parallel_start_once_witness :
    start initialService true = StartResult.ok ⟨true, false⟩ ∧
    start ⟨true, false⟩ true = StartResult.alreadyRunning ⟨true, true⟩ ∧
    isAlreadyRunning (start initialService false) = false :=
  c5_parallel_start_once initialService rfl rfl

/-- C6 counterexample: on a cleanly ended stream — socket open, empty
remainder, every `recv` returning empty bytes — the accumulation loop never
terminates, for every fuel; `receive` does not return the null result there. -/
theorem c6_clean_end_counterexample : divergesOn cleanEndConn :=
  cleanEnd_diverges_aux

/-- C6 (amended): an `IOError` during accumulation — a read failing after any
number of delimiter-free partial reads, or any read attempted once the local
socket is closed — is not raised to the caller and is converted to the null
result; but a cleanly ended stream, whose reads return empty bytes without
raising, makes the accumulation loop run forever instead of returning null. -/
theorem c6_read_failure_null (c d : Conn) (chunks : List Bytes)
    (rest : List RecvStep) (fuel : Nat)
    (hrem : c.remainder = []) (hopen : c.sockOpen = true)
    (hstream : c.stream = chunks.map RecvStep.data ++ RecvStep.fail :: rest)
    (hnd : ∀ k, k ≤ chunks.length → endsWithDelim ((chunks.take k).flatten) = false)
    (hdrem : d.remainder = []) (hdclosed : d.sockOpen = false) :
    receive (chunks.length + 1) c = ReceiveResult.nothing { c with stream := rest } ∧
    receive (fuel + 1) d = ReceiveResult.nothing d ∧
    divergesOn cleanEndConn := by
  refine ⟨?_, ?_, cleanEnd_diverges_aux⟩
  · have hacc := recvAccum_fail_after_chunks chunks rest []
      (by intro k hk; simpa using hnd k hk)
    have hrecv : recvAccum (chunks.length + 1) c.sockOpen c.stream [] = .ioerror rest := by
      rw [hopen, hstream]
      exact hacc
    simp only [receive, hrem, ne_eq, not_true_eq_false, if_false, hrecv]
  · rcases d with ⟨so, rem, st⟩
    simp only at hdrem hdclosed
    subst hdrem
    subst hdclosed
    simp [receive, recvAccum, endsWithDelim]

/-- C6 witness: a read delivering the partial chunk `b"P"` followed by a read
failure mid-accumulation produces the null result, a receive on a locally
closed connection produces the null result, and the clean-end stream
diverges. -/
theorem c6_read_failure_null_witness :
    receive 2 ⟨true, [], [RecvStep.data [80], RecvStep.fail]⟩
      = ReceiveResult.nothing ⟨true, [], []⟩ ∧
    receive 1 ⟨false, [], []⟩ = ReceiveResult.nothing ⟨false, [], []⟩ ∧
    divergesOn cleanEndConn :=
  c6_read_failure_null ⟨true, [], [RecvStep.data [80], RecvStep.fail]⟩
    ⟨false, [], []⟩ [[80]] [] 0 rfl rfl rfl
    (by
      intro k hk
      have hk1 : k ≤ 1 := by simpa using hk
      interval_cases k <;> decide) rfl rfl

/-- C7: through an open socket, `send b"disconnect"` puts the sentinel plus
exactly one delimiter on the wire and closes the local socket; `disconnect`
is exactly `send b"disconnect"`; and a dispatch loop whose first received
value carries the payload `b"disconnect"` invokes `on_disconnect` exactly
once (closing its side and terminating) and passes nothing to `on_receive`. -/
theorem c7_disconnect_protocol (c : Conn) (rest : List (Option Bytes))
    (hopen : c.sockOpen = true) :
    send c disconnectMsg = some (disconnectMsg ++ [delim], { c with sockOpen := false }) ∧
    disconnect c = send c disconnectMsg ∧
    stageRun (some disconnectMsg :: rest) = ([], 1) := by
  refine ⟨?_, rfl, ?_⟩
  · simp [send, requireOpenSocket, Conn.closed, hopen, close_eq]
  · simp [stageRun, stageStep]

/-- C7 witness: the disconnect handshake on a concrete open connection and a
dispatch script starting with the sentinel. -/
theorem c7_disconnect_protocol_witness :
    send ⟨true, [], []⟩ disconnectMsg
      = some (disconnectMsg ++ [delim], ⟨false, [], []⟩) ∧
    disconnect ⟨true, [], []⟩ = send ⟨true, [], []⟩ disconnectMsg ∧
    stageRun (some disconnectMsg :: [some [65]]) = ([], 1) :=
  c7_disconnect_protocol ⟨true, [], []⟩ [some [65]] rfl

/-- C8: `close` never fails: it returns on every connection, after it the
socket reads as closed (`closed` returns true, and being a total function it
raises nothing), and a second `close` on the already-closed connection also
returns without error. -/
theorem c8_close_closed_safe (c : Conn) :
    c.close = some { c with sockOpen := false } ∧
    Conn.closed { c with sockOpen := false } = true ∧
    Conn.close { c with sockOpen := false } = some { c with sockOpen := false } :=
  ⟨rfl, rfl, rfl⟩

/-- C9: when `_register_process` is entered with the lock free and a worker
thread already registered, it raises the already-running error after
acquiring the lock and before the `try`/`finally` that releases it, so the
error leaves the lock held. -/
theorem c9_lock_not_released_on_error (s : ServiceState)
    (hmt : s.mainThread = true) (hlk : s.lockHeld = false) :
    registerProcess s = RegResult.alreadyRunning { s with lockHeld := true } ∧
    ServiceState.lockHeld { s with lockHeld := true } = true := by
  refine ⟨?_, rfl⟩
  simp [registerProcess, hmt, hlk]

/-- C9 witness: the second registration on a service whose worker is already
registered leaves the lock held. -/
theorem c9_lock_not_released_on_error_witness :
    registerProcess ⟨true, false⟩ = RegResult.alreadyRunning ⟨true, true⟩ ∧
    ServiceState.lockHeld ⟨true, true⟩ = true :=
  c9_lock_not_released_on_error ⟨true, false⟩ rfl rfl

/-- C10: on a connection whose remainder is non-empty and delimiter-free,
`receive` returns the empty byte string and replaces the remainder with just
its own last byte; that one-byte remainder is a fixed point, so every
subsequent `receive` again returns the empty byte string. -/
theorem c10_no_delimiter_remainder (fuel : Nat) (c : Conn) (b : Nat)
    (hne : c.remainder ≠ []) (hnod : delim ∉ c.remainder)
    (hlast : c.remainder.getLast? = some b) :
    receive fuel c = ReceiveResult.frame [] { c with remainder := [b] } ∧
    receive fuel { c with remainder := [b] }
      = ReceiveResult.frame [] { c with remainder := [b] } := by
  have hb : b ∈ c.remainder := getLast_mem_of_some c.remainder b hlast
  have hbd : b ≠ delim := fun e => hnod (e ▸ hb)
  have hfind : pyFind c.remainder = -1 := pyFind_of_not_mem c.remainder hnod
  have hlen : 1 ≤ c.remainder.length := List.length_pos.mpr hne
  have hrfr : receiveFromRemainder c.remainder = ([], [b]) := by
    have hcond : (-1 : Int) ≠ (c.remainder.length : Int) - 1 := by omega
    simp only [receiveFromRemainder, hfind]
    rw [if_pos hcond]
    have h1 : pySliceTo c.remainder (-1 + 1) = [] := by
      norm_num [pySliceTo]
    have h2 : pySliceFrom c.remainder (-1) = [b] := by
      rw [pySliceFrom, if_neg (by norm_num)]
      have ht : ((-(-1) : Int)).toNat = 1 := rfl
      rw [ht]
      exact drop_pred_getLast c.remainder b hlast
    rw [h1, h2]
  have hfind2 : pyFind [b] = -1 := by
    refine pyFind_of_not_mem [b] ?_
    intro hmem
    exact hbd (List.mem_singleton.mp hmem).symm
  have hrfr2 : receiveFromRemainder [b] = ([], [b]) := by
    simp only [receiveFromRemainder, hfind2]
    rw [if_pos (by norm_num)]
    rfl
  constructor
  · rw [receive_remainder_case fuel c hne, hrfr]
  · rw [receive_remainder_case fuel { c with remainder := [b] } (by simp)]
    rw [show ({ c with remainder := [b] } : Conn).remainder = [b] from rfl, hrfr2]

/-- C10 witness: a remainder of the single non-delimiter byte `b"A"` yields
the empty frame and keeps exactly that byte buffered. -/
theorem c10_no_delimiter_remainder_witness :
    receive 0 ⟨true, [65], []⟩ = ReceiveResult.frame [] ⟨true, [65], []⟩ ∧
    receive 0 ⟨true, [65], []⟩ = ReceiveResult.frame [] ⟨true, [65], []⟩ :=
  c10_no_delimiter_remainder 0 ⟨true, [65], []⟩ 65 (by decide) (by decide) rfl

end Leads
